import Mathlib

/-!
Verification of the command-line argument handling module `renpy/arguments.py`.

The module performs two-phase argument parsing: a lenient bootstrap pass
(`bootstrap`) run before initialization, and a strict dispatch pass
(`post_init`) run after commands have been registered with
`register_command`.  Platform sanitizers (`clean_epic_arguments`,
`clean_macos_arguments`) strip launcher-injected tokens before any parse.

The embedding below models the module's own code directly.  The generic
parsing engine it delegates to (Python's `argparse`, standard library, not
part of this repository) is modelled from the spec's Argument Grammar
contract, restricted to lenient mode as configured by the source's
`add_argument` declarations.
-/

/-- Lowercase of a string, character by character (models Python `str.lower`
for the ASCII marker comparisons used in this module). -/
def strLower (s : String) : String := ⟨s.data.map Char.toLower⟩

/-- Bool test that the first character list begins with the second. -/
def listStarts : List Char → List Char → Bool
  | _, [] => true
  | [], _ :: _ => false
  | c :: cs, p :: ps => c = p && listStarts cs ps

/-- Bool test that string `s` begins with string `p` (models Python
`str.startswith`). -/
def strStarts (s p : String) : Bool := listStarts s.data p.data

/-- Process-wide mutable state touched by the sanitizers: `sys.argv` and the
module-level `epic_arguments` side channel (initially `None`). -/
structure SysState where
  argv : List String
  epic_arguments : Option (List String)
deriving DecidableEq, Repr

/-- Model of `clean_epic_arguments`: if any token after the program name
lowercase-starts with `"-epicapp="`, save the whole tail into
`epic_arguments` and reduce `sys.argv` to just the program name; otherwise
return unchanged.  (The Python `for`/`break`/`else` scan acts exactly when
some token matches.) -/
def clean_epic_arguments (s : SysState) : SysState :=
  if (s.argv.drop 1).any (fun i => strStarts (strLower i) "-epicapp=") then
    { argv := s.argv.take 1, epic_arguments := some (s.argv.drop 1) }
  else
    s

/-- Model of `clean_macos_arguments`: if any token after the program name
lowercase-starts with `"-psn"`, reduce `sys.argv` to just the program name;
nothing is saved aside. -/
def clean_macos_arguments (s : SysState) : SysState :=
  if (s.argv.drop 1).any (fun i => strStarts (strLower i) "-psn") then
    { argv := s.argv.take 1, epic_arguments := s.epic_arguments }
  else
    s

/-- The record of global flag values produced by a parse, one field per
`add_argument` declaration in `ArgumentParser.__init__`, with the declared
defaults (lenient mode: `basedir` defaults to `""`, `command` to `"run"`). -/
structure ParsedArgs where
  basedir : String := ""
  command : String := "run"
  savedir : Option String := none
  trace : Int := 0
  compile : Bool := false
  compile_python : Bool := false
  keep_orphan_rpyc : Bool := false
  lint : Bool := false
  errors_in_editor : Bool := false
  safe_mode : Bool := false
  warp : Option String := none
  json_dump : Option String := none
  json_dump_private : Bool := false
  json_dump_common : Bool := false
deriving DecidableEq, Repr

/-- The lenient-mode defaults: every field as declared by `add_argument`. -/
def defaultArgs : ParsedArgs := {}

/-- Commands that force compile to be set (`compile_commands` in the source,
a Python set modelled as a list with membership). -/
def compile_commands : List String := ["compile", "add_from", "merge_strings"]

/-- Session key-value store (`renpy.session`); within this module only
boolean markers (`"_reload"`, `"compile"`, `"_warped"`) are read or written. -/
abbrev Session := String → Option Bool

/-- Model of `renpy.session.get(key, default)`. -/
def Session.get (s : Session) (k : String) (d : Bool) : Bool := (s k).getD d

/-- Model of `renpy.session[key] = value`. -/
def Session.set (s : Session) (k : String) (v : Bool) : Session :=
  fun x => if x = k then some v else s x

/-- Session with no keys set. -/
def emptySession : Session := fun _ => none

/-- What becomes of a single option token: a boolean flag, a value-taking
option, or the version action. -/
inductive OptKind where
  | flag (set : ParsedArgs → ParsedArgs)
  | store (set : ParsedArgs → String → Option ParsedArgs)
  | version

/-- Modelled from the spec: the option table of the Argument Grammar,
exactly the option strings declared by `add_argument` in
`ArgumentParser.__init__` (lenient mode, so without `-h`/`--help`).
`--trace` converts its value with `int()`, modelled by `String.toInt?`. -/
def optKind : String → Option OptKind
  | "--savedir" => some (.store fun a v => some { a with savedir := some v })
  | "--trace" => some (.store fun a v => (v.toInt?).map fun n => { a with trace := n })
  | "--version" => some .version
  | "--compile" => some (.flag fun a => { a with compile := true })
  | "--compile-python" => some (.flag fun a => { a with compile_python := true })
  | "--keep-orphan-rpyc" => some (.flag fun a => { a with keep_orphan_rpyc := true })
  | "--lint" => some (.flag fun a => { a with lint := true })
  | "--errors-in-editor" => some (.flag fun a => { a with errors_in_editor := true })
  | "--safe-mode" => some (.flag fun a => { a with safe_mode := true })
  | "--warp" => some (.store fun a v => some { a with warp := some v })
  | "--json-dump" => some (.store fun a v => some { a with json_dump := some v })
  | "--json-dump-private" => some (.flag fun a => { a with json_dump_private := true })
  | "--json-dump-common" => some (.flag fun a => { a with json_dump_common := true })
  | _ => none

/-- Bool test that a token is option-like: begins with `-` and is not the
bare `-` (which the grammar treats as positional). -/
def isOptionLike (t : String) : Bool := strStarts t "-" && !(t = "-")

/-- Splits an option token at its first `=`, character by character. -/
def splitEqChars : List Char → Option (List Char × List Char)
  | [] => none
  | c :: cs =>
    if c = '=' then some ([], cs)
    else (splitEqChars cs).map fun p => (c :: p.1, p.2)

/-- Splits a token of the form `--opt=value` into the option string and its
inline value, if any. -/
def splitEq (t : String) : String × Option String :=
  match splitEqChars t.data with
  | none => (t, none)
  | some (a, b) => (⟨a⟩, some ⟨b⟩)

/-- Outcome of one parsing pass: a parsed record plus the unrecognized
tokens, or a process exit (version action exits 0; a usage error prints
usage text and exits with status 2). -/
inductive ParseOutcome where
  | ok (args : ParsedArgs) (rest : List String)
  | exitVersion
  | usageError
deriving DecidableEq, Repr

/-- Modelled from the spec: the lenient parsing engine (`argparse` in
`parse_known_args` mode, abbreviation matching not modelled).  Tokens are
consumed left to right; option-like tokens are looked up in the option
table (unknown ones are collected as unrecognized), a value-taking option
consumes its inline `=value` or the following non-option token, and
non-option tokens fill the positionals `basedir` then `command` in order,
with later extras collected as unrecognized.  `a` is the record built so
far, `npos` counts positionals already filled, `rest` accumulates
unrecognized tokens in reverse. -/
def lenientParse : List String → ParsedArgs → Nat → List String → ParseOutcome
  | [], a, _, rest => .ok a rest.reverse
  | t :: ts, a, npos, rest =>
    if isOptionLike t then
      match optKind (splitEq t).1 with
      | some (.flag set) =>
        match (splitEq t).2 with
        | none => lenientParse ts (set a) npos rest
        | some _ => .usageError
      | some .version => .exitVersion
      | some (.store set) =>
        match (splitEq t).2 with
        | some v =>
          match set a v with
          | some a' => lenientParse ts a' npos rest
          | none => .usageError
        | none =>
          match ts with
          | [] => .usageError
          | v :: ts' =>
            if isOptionLike v then .usageError
            else
              match set a v with
              | some a' => lenientParse ts' a' npos rest
              | none => .usageError
      | none => lenientParse ts a npos (t :: rest)
    else
      if npos = 0 then lenientParse ts { a with basedir := t } 1 rest
      else if npos = 1 then lenientParse ts { a with command := t } 2 rest
      else lenientParse ts a npos (t :: rest)

/-- The post-processing rules applied by the `parse_known_args` override
after every successful parse, in source order: (1) a `"_reload"` session
marker forces `compile` false; (2) a command in `compile_commands` forces
`compile` true; (3) a `"compile"` session marker forces `compile` true. -/
def postProcessArgs (session : Session) (args : ParsedArgs) : ParsedArgs :=
  let args := if session.get "_reload" false then { args with compile := false } else args
  let args := if args.command ∈ compile_commands then { args with compile := true } else args
  let args := if session.get "compile" false then { args with compile := true } else args
  args

/-- Model of `ArgumentParser.parse_known_args` (lenient construction): run
the engine on the tokens after the program name, then apply the
post-processing rules to the parsed record. -/
def parse_known_args (session : Session) (tokens : List String) : ParseOutcome :=
  match lenientParse tokens defaultArgs 0 [] with
  | .ok args rest => .ok (postProcessArgs session args) rest
  | o => o

/-- What `bootstrap` returns: the parsed arguments alone, or a process
exit.  The unrecognized-token list produced by the lenient parse is bound
to `_rest` in the source and discarded, although the function's docstring
says it returns the parsed arguments and the list of unknown arguments. -/
inductive BootOutcome where
  | ok (args : ParsedArgs)
  | exitVersion
  | usageError
deriving DecidableEq, Repr

/-- Model of `bootstrap`: run both sanitizers, parse leniently, and if the
resolved command is `"lint"` force the `lint` flag true.  Returns the
mutated `sys` state together with the function's return value. -/
def bootstrap (sys : SysState) (session : Session) : SysState × BootOutcome :=
  let sys := clean_epic_arguments sys
  let sys := clean_macos_arguments sys
  match parse_known_args session (sys.argv.drop 1) with
  | .ok args _rest =>
    (sys, .ok (if args.command = "lint" then { args with lint := true } else args))
  | .exitVersion => (sys, .exitVersion)
  | .usageError => (sys, .usageError)

/-- The command handlers registered by `pre_init`, as abstract tags (their
bodies are out of scope for dispatch-level claims). -/
inductive Handler where
  | run
  | lint
  | compile
  | rmpersistent
  | quit
deriving DecidableEq, Repr

/-- The two module-level registries, `commands` (name to handler) and
`display` (name to needs-display flag), modelled as partial maps.  `H` is
the handler representation. -/
structure Registry (H : Type) where
  commands : String → Option H
  display : String → Option Bool

/-- The registries before any registration: both empty dicts. -/
def emptyRegistry (H : Type) : Registry H :=
  { commands := fun _ => none, display := fun _ => none }

/-- Dict assignment `d[k] = v`. -/
def dictSet {α : Type} (d : String → Option α) (k : String) (v : α) : String → Option α :=
  fun x => if x = k then some v else d x

/-- Model of `register_command(name, function, uses_display=False)`: store
the handler and the display flag under the same name in the two dicts. -/
def register_command {H : Type} (r : Registry H) (name : String) (f : H)
    (uses_display : Bool) : Registry H :=
  { commands := dictSet r.commands name f, display := dictSet r.display name uses_display }

/-- A whole sequence of registrations applied to the initially empty
registries. -/
def applyRegistrations (H : Type) (l : List (String × H × Bool)) : Registry H :=
  l.foldl (fun r x => register_command r x.1 x.2.1 x.2.2) (emptyRegistry H)

/-- Model of `pre_init`: the five built-in registrations, with
`uses_display` true only for `"run"` (the others use the default `False`). -/
def pre_init : Registry Handler :=
  let r := emptyRegistry Handler
  let r := register_command r "run" Handler.run true
  let r := register_command r "lint" Handler.lint false
  let r := register_command r "compile" Handler.compile false
  let r := register_command r "rmpersistent" Handler.rmpersistent false
  register_command r "quit" Handler.quit false

/-- Environment-variable state (`os.environ`). -/
abbrev Environ := String → Option String

/-- Model of `os.environ.setdefault(k, v)`: set `k` to `v` only if `k` is
currently unset. -/
def Environ.setdefault (e : Environ) (k v : String) : Environ :=
  if (e k).isSome then e else fun x => if x = k then some v else e x

/-- The effective command resolved by `post_init`: `"run"` with the `lint`
flag set redirects to `"lint"`. -/
def effectiveCommand (args : ParsedArgs) : String :=
  if args.command = "run" && args.lint then "lint" else args.command

/-- What `post_init` does after resolving the command: exit through
`ArgumentParser().error` (usage text, exit status 2), crash with a
`KeyError` on a `display` lookup miss, or call the handler found in
`commands` with the environment as updated by the dummy-driver defaults. -/
inductive DispatchOutcome (H : Type) where
  | usageError (msg : String)
  | keyError
  | invoked (name : String) (handler : H) (env : Environ)

/-- The exit status of an outcome that terminates the process before any
handler runs (`parser.error` exits with status 2). -/
def DispatchOutcome.exitStatus {H : Type} : DispatchOutcome H → Option Nat
  | .usageError _ => some 2
  | _ => none

/-- Model of `post_init`: resolve the effective command; unknown commands
are a fatal usage error (`"Command ... is unknown."`); for a command whose
`display` entry is false, `setdefault` the two SDL driver variables to
`"dummy"` (audio first, then video); finally invoke the registered
handler. -/
def post_init {H : Type} (reg : Registry H) (args : ParsedArgs) (env : Environ) :
    DispatchOutcome H :=
  let command := effectiveCommand args
  match reg.commands command with
  | none => .usageError ("Command " ++ command ++ " is unknown.")
  | some f =>
    match reg.display command with
    | none => .keyError
    | some d =>
      let env :=
        if !d then
          Environ.setdefault (Environ.setdefault env "SDL_AUDIODRIVER" "dummy")
            "SDL_VIDEODRIVER" "dummy"
        else env
      .invoked command f env

/-- Truthiness of the `warp` field (Python `if args.warp`): a present,
non-empty string. -/
def warpTruthy : Option String → Bool
  | none => false
  | some s => !(s = "")

/-- The state read and written by the run handler's warp step: the session
store and `renpy.warp.warp_spec`. -/
structure WarpState where
  session : Session
  warp_spec : Option String

/-- Bool test that one invocation of the run handler takes the warp branch:
`args.warp` truthy and the `"_warped"` session marker unset. -/
def appliesWarp (args : ParsedArgs) (st : WarpState) : Bool :=
  warpTruthy args.warp && !(st.session.get "_warped" false)

/-- Model of the warp step of the `run` handler: if `args.warp` is truthy
and the `"_warped"` session marker is unset, set the marker and assign the
warp specification; otherwise leave the state alone. -/
def run_warp (args : ParsedArgs) (st : WarpState) : WarpState :=
  if appliesWarp args st then
    { session := st.session.set "_warped" true, warp_spec := args.warp }
  else st

/-- Number of invocations, along a sequence of run-handler calls, that take
the warp branch. -/
def countWarpApplications : List ParsedArgs → WarpState → Nat
  | [], _ => 0
  | a :: l, st =>
    (if appliesWarp a st then 1 else 0) + countWarpApplications l (run_warp a st)

/-- The option strings of the grammar's boolean (`store_true`) flags: the
tokens that are recognized, consume no value, and fill no positional. -/
def booleanFlagTokens : List String :=
  ["--compile", "--compile-python", "--keep-orphan-rpyc", "--lint",
   "--errors-in-editor", "--safe-mode", "--json-dump-private", "--json-dump-common"]

/-- Environment with no variables set, used as a concrete starting point. -/
def emptyEnviron : Environ := fun _ => none

/-- Concrete environment with the audio driver already chosen by the
operator, used to exercise the setdefault behavior. -/
def sampleEnviron : Environ :=
  fun k => if k = "SDL_AUDIODRIVER" then some "alsa" else none

/-- Concrete session with the reload-in-progress marker set. -/
def reloadSession : Session := fun k => if k = "_reload" then some true else none

/-- Concrete parsed arguments carrying a warp target. -/
def warpArgs : ParsedArgs := { defaultArgs with warp := some "script.rpy:10" }

/-- Concrete warp-step state in which the `"_warped"` marker is already
set. -/
def warpedState : WarpState :=
  { session := Session.set emptySession "_warped" true, warp_spec := none }

/-- Helper: `setdefault` at its own key yields the old value when present
and the default otherwise. -/
theorem Environ.setdefault_same (e : Environ) (k v : String) :
    Environ.setdefault e k v k = some ((e k).getD v) := by
  unfold Environ.setdefault
  cases h : e k <;> simp [h]

/-- Helper: `setdefault` leaves every other key alone. -/
theorem Environ.setdefault_other (e : Environ) (k v x : String) (hx : x ≠ k) :
    Environ.setdefault e k v x = e x := by
  unfold Environ.setdefault
  split
  · rfl
  · simp [hx]

/-- Helper: the post-processing rules touch only the `compile` field. -/
theorem postProcessArgs_fields (session : Session) (a : ParsedArgs) :
    (postProcessArgs session a).command = a.command ∧
    (postProcessArgs session a).basedir = a.basedir := by
  simp only [postProcessArgs]
  split <;> split <;> split <;> exact ⟨rfl, rfl⟩

/-- C1: dispatch of an effective command name absent from the command
registry terminates through the usage-error path (`parser.error`, exit
status 2, hence non-zero) and never invokes any registered handler. -/
theorem C1_unknown_command_usage_error {H : Type} (reg : Registry H)
    (args : ParsedArgs) (env : Environ)
    (h : reg.commands (effectiveCommand args) = none) :
    post_init reg args env =
      .usageError ("Command " ++ effectiveCommand args ++ " is unknown.") ∧
    (post_init reg args env).exitStatus = some 2 ∧ (2 : Nat) ≠ 0 ∧
    ∀ (name : String) (f : H) (env2 : Environ),
      post_init reg args env ≠ .invoked name f env2 := by
  have hp : post_init reg args env =
      .usageError ("Command " ++ effectiveCommand args ++ " is unknown.") := by
    simp only [post_init]
    rw [h]
  refine ⟨hp, by rw [hp]; rfl, by decide, ?_⟩
  intro name f env2 hcon
  rw [hp] at hcon
  exact DispatchOutcome.noConfusion hcon

/-- C1 witness: dispatching the unregistered command `"frobnicate"`
against the built-in registry is a usage error and no handler runs. -/
theorem C1_witness :
    post_init pre_init { defaultArgs with command := "frobnicate" } emptyEnviron =
      .usageError
        ("Command " ++ effectiveCommand { defaultArgs with command := "frobnicate" } ++
          " is unknown.") ∧
    (post_init pre_init { defaultArgs with command := "frobnicate" } emptyEnviron).exitStatus =
      some 2 ∧ (2 : Nat) ≠ 0 ∧
    ∀ (name : String) (f : Handler) (env2 : Environ),
      post_init pre_init { defaultArgs with command := "frobnicate" } emptyEnviron ≠
        .invoked name f env2 :=
  C1_unknown_command_usage_error pre_init { defaultArgs with command := "frobnicate" }
    emptyEnviron (by decide)

/-- C2: after any parse whose resolved command is one of the
compile-forcing commands, the `compile` flag is true — for the parses the
module performs, and for the post-processing rules applied to any parsed
record under any session state (so the reload rule (1) is overridden by
rule (2) within the same parse). -/
theorem C2_compile_commands_force_compile (session : Session) (toks : List String)
    (args args2 : ParsedArgs) (rest : List String) :
    (parse_known_args session toks = .ok args rest →
      args.command ∈ compile_commands → args.compile = true) ∧
    (args2.command ∈ compile_commands → (postProcessArgs session args2).compile = true) := by
  have post : ∀ a : ParsedArgs, a.command ∈ compile_commands →
      (postProcessArgs session a).compile = true := by
    intro a ha
    simp only [postProcessArgs]
    have hcmd : (if Session.get session "_reload" false then { a with compile := false }
        else a).command ∈ compile_commands := by
      split <;> exact ha
    rw [if_pos hcmd]
    split <;> rfl
  constructor
  · intro h hm
    unfold parse_known_args at h
    cases hp : lenientParse toks defaultArgs 0 [] with
    | ok a r =>
      rw [hp] at h
      cases h
      refine post a ?_
      rwa [(postProcessArgs_fields session a).1] at hm
    | exitVersion => rw [hp] at h; cases h
    | usageError => rw [hp] at h; cases h
  · exact post args2

/-- C2 witness: command `"compile"` with the reload marker set and
`--compile` absent still comes out with `compile = true`. -/
theorem C2_witness :
    (postProcessArgs reloadSession { defaultArgs with command := "compile" }).compile = true :=
  (C2_compile_commands_force_compile reloadSession []
    { defaultArgs with command := "compile" }
    { defaultArgs with command := "compile" } []).2 (by decide)

/-- C3: the lenient parse of `["--unknown-flag"]` produces the
unrecognized-token list `["--unknown-flag"]`, but `bootstrap` returns only
the parsed arguments — its return value carries no unknown-token list,
contrary to its own docstring and the spec. -/
theorem C3_bootstrap_discards_unknown_tokens :
    lenientParse ["--unknown-flag"] defaultArgs 0 [] =
      .ok defaultArgs ["--unknown-flag"] ∧
    (bootstrap ⟨["renpy", "--unknown-flag"], none⟩ emptySession).2 = .ok defaultArgs :=
  ⟨by decide, by decide⟩

/-- C4: a token lowercase-starting with the Epic launcher marker reduces
`sys.argv` to the program name with the tail saved in `epic_arguments`; a
token lowercase-starting with the macOS quarantine marker reduces
`sys.argv` to the program name without saving anything; with no marker
present each sanitizer leaves the state unchanged. -/
theorem C4_platform_sanitizers (prog : String) (tl : List String)
    (ea : Option (List String)) :
    ((∃ t ∈ tl, strStarts (strLower t) "-epicapp=" = true) →
      clean_epic_arguments ⟨prog :: tl, ea⟩ = ⟨[prog], some tl⟩) ∧
    ((∃ t ∈ tl, strStarts (strLower t) "-psn" = true) →
      clean_macos_arguments ⟨prog :: tl, ea⟩ = ⟨[prog], ea⟩) ∧
    ((∀ t ∈ tl, strStarts (strLower t) "-epicapp=" = false) →
      clean_epic_arguments ⟨prog :: tl, ea⟩ = ⟨prog :: tl, ea⟩) ∧
    ((∀ t ∈ tl, strStarts (strLower t) "-psn" = false) →
      clean_macos_arguments ⟨prog :: tl, ea⟩ = ⟨prog :: tl, ea⟩) := by
  refine ⟨?_, ?_, ?_, ?_⟩
  · intro h
    have hany : tl.any (fun i => strStarts (strLower i) "-epicapp=") = true := by
      rw [List.any_eq_true]
      obtain ⟨t, ht, hp⟩ := h
      exact ⟨t, ht, hp⟩
    simp [clean_epic_arguments, hany]
  · intro h
    have hany : tl.any (fun i => strStarts (strLower i) "-psn") = true := by
      rw [List.any_eq_true]
      obtain ⟨t, ht, hp⟩ := h
      exact ⟨t, ht, hp⟩
    simp [clean_macos_arguments, hany]
  · intro h
    have hany : tl.any (fun i => strStarts (strLower i) "-epicapp=") = false := by
      rw [List.any_eq_false]
      intro t ht
      simp [h t ht]
    simp [clean_epic_arguments, hany]
  · intro h
    have hany : tl.any (fun i => strStarts (strLower i) "-psn") = false := by
      rw [List.any_eq_false]
      intro t ht
      simp [h t ht]
    simp [clean_macos_arguments, hany]

/-- C4 witness: an Epic-injected token clears the vector and saves the
tail. -/
theorem C4_witness :
    clean_epic_arguments ⟨["renpy", "-EpicApp=abc", "game"], none⟩ =
      ⟨["renpy"], some ["-EpicApp=abc", "game"]⟩ :=
  (C4_platform_sanitizers "renpy" ["-EpicApp=abc", "game"] none).1 (by decide)

/-- C5: dispatching with provisional command `"run"` and the lint flag true
invokes the handler registered under `"lint"` and never the one registered
under `"run"`. -/
theorem C5_run_lint_redirect {H : Type} (reg : Registry H) (args : ParsedArgs)
    (env : Environ) (fl : H) (d : Bool)
    (hcmd : args.command = "run") (hlint : args.lint = true)
    (hc : reg.commands "lint" = some fl) (hd : reg.display "lint" = some d) :
    post_init reg args env =
      .invoked "lint" fl
        (if !d then
          Environ.setdefault (Environ.setdefault env "SDL_AUDIODRIVER" "dummy")
            "SDL_VIDEODRIVER" "dummy"
         else env) ∧
    ∀ (g : H) (env2 : Environ), post_init reg args env ≠ .invoked "run" g env2 := by
  have he : effectiveCommand args = "lint" := by
    simp [effectiveCommand, hcmd, hlint]
  have hp : post_init reg args env =
      .invoked "lint" fl
        (if !d then
          Environ.setdefault (Environ.setdefault env "SDL_AUDIODRIVER" "dummy")
            "SDL_VIDEODRIVER" "dummy"
         else env) := by
    simp only [post_init, he]
    rw [hc, hd]
  refine ⟨hp, ?_⟩
  intro g env2 hcon
  rw [hp] at hcon
  injection hcon with h1 _ _
  exact absurd h1 (by decide)

/-- C5 witness: against the built-in registry, `command = "run"` with
`lint = true` invokes `Handler.lint`, never any `"run"` invocation. -/
theorem C5_witness :
    post_init pre_init { defaultArgs with lint := true } emptyEnviron =
      .invoked "lint" Handler.lint
        (if !false then
          Environ.setdefault (Environ.setdefault emptyEnviron "SDL_AUDIODRIVER" "dummy")
            "SDL_VIDEODRIVER" "dummy"
         else emptyEnviron) ∧
    ∀ (g : Handler) (env2 : Environ),
      post_init pre_init { defaultArgs with lint := true } emptyEnviron ≠
        .invoked "run" g env2 :=
  C5_run_lint_redirect pre_init { defaultArgs with lint := true } emptyEnviron
    Handler.lint false rfl rfl (by decide) (by decide)

/-- C6: dispatching a command registered with `uses_display = false` yields
an environment in which each SDL driver variable keeps its previous value
when set and becomes `"dummy"` when unset, while every other variable is
untouched. -/
theorem C6_headless_driver_defaults {H : Type} (reg : Registry H)
    (args : ParsedArgs) (env : Environ) (f : H)
    (hc : reg.commands (effectiveCommand args) = some f)
    (hd : reg.display (effectiveCommand args) = some false) :
    ∃ env2 : Environ,
      post_init reg args env = .invoked (effectiveCommand args) f env2 ∧
      env2 "SDL_AUDIODRIVER" = some ((env "SDL_AUDIODRIVER").getD "dummy") ∧
      env2 "SDL_VIDEODRIVER" = some ((env "SDL_VIDEODRIVER").getD "dummy") ∧
      ∀ k : String, k ≠ "SDL_AUDIODRIVER" → k ≠ "SDL_VIDEODRIVER" → env2 k = env k := by
  refine ⟨Environ.setdefault (Environ.setdefault env "SDL_AUDIODRIVER" "dummy")
    "SDL_VIDEODRIVER" "dummy", ?_, ?_, ?_, ?_⟩
  · simp only [post_init]
    rw [hc, hd]
    rfl
  · rw [Environ.setdefault_other _ _ _ _ (by decide)]
    exact Environ.setdefault_same env "SDL_AUDIODRIVER" "dummy"
  · rw [Environ.setdefault_same]
    rw [Environ.setdefault_other _ _ _ _ (by decide)]
  · intro k hk1 hk2
    rw [Environ.setdefault_other _ _ _ _ hk2, Environ.setdefault_other _ _ _ _ hk1]

/-- C6 witness: dispatching `"quit"` (registered without display) with the
audio driver preset to `"alsa"` keeps it, defaults the video driver to
`"dummy"`, and touches nothing else. -/
theorem C6_witness :
    ∃ env2 : Environ,
      post_init pre_init { defaultArgs with command := "quit" } sampleEnviron =
        .invoked (effectiveCommand { defaultArgs with command := "quit" }) Handler.quit env2 ∧
      env2 "SDL_AUDIODRIVER" = some ((sampleEnviron "SDL_AUDIODRIVER").getD "dummy") ∧
      env2 "SDL_VIDEODRIVER" = some ((sampleEnviron "SDL_VIDEODRIVER").getD "dummy") ∧
      ∀ k : String, k ≠ "SDL_AUDIODRIVER" → k ≠ "SDL_VIDEODRIVER" →
        env2 k = sampleEnviron k :=
  C6_headless_driver_defaults pre_init { defaultArgs with command := "quit" }
    sampleEnviron Handler.quit (by decide) (by decide)

/-- C7: whenever `bootstrap` returns parsed arguments whose command is
`"lint"`, the lint flag in them is true, whatever the input tokens and
session state were. -/
theorem C7_bootstrap_forces_lint (sys : SysState) (session : Session)
    (args : ParsedArgs) (h : (bootstrap sys session).2 = .ok args)
    (hc : args.command = "lint") : args.lint = true := by
  simp only [bootstrap] at h
  cases hp : parse_known_args session
      ((clean_macos_arguments (clean_epic_arguments sys)).argv.drop 1) with
  | ok a r =>
    rw [hp] at h
    injection h with h2
    by_cases ha : a.command = "lint"
    · rw [if_pos ha] at h2
      rw [← h2]
    · rw [if_neg ha] at h2
      rw [← h2] at hc
      exact absurd hc ha
  | exitVersion =>
    rw [hp] at h
    exact BootOutcome.noConfusion h
  | usageError =>
    rw [hp] at h
    exact BootOutcome.noConfusion h

/-- C7 witness: `renpy proj lint` without `--lint` bootstraps to arguments
with the lint flag forced true. -/
theorem C7_witness :
    ({ defaultArgs with basedir := "proj", command := "lint", lint := true } :
      ParsedArgs).lint = true :=
  C7_bootstrap_forces_lint ⟨["renpy", "proj", "lint"], none⟩ emptySession
    { defaultArgs with basedir := "proj", command := "lint", lint := true }
    (by decide) (by decide)

/-- Helper: a consecutive run of boolean flag tokens parses successfully
and leaves the positional fields of the accumulated record untouched. -/
theorem lenientParse_flag_tokens (toks : List String) (a : ParsedArgs)
    (npos : Nat) (rest : List String) (h : ∀ t ∈ toks, t ∈ booleanFlagTokens) :
    ∃ (a2 : ParsedArgs) (r2 : List String),
      lenientParse toks a npos rest = .ok a2 r2 ∧
      a2.basedir = a.basedir ∧ a2.command = a.command := by
  induction toks generalizing a with
  | nil => exact ⟨a, rest.reverse, rfl, rfl, rfl⟩
  | cons t ts ih =>
    have hts : ∀ x ∈ ts, x ∈ booleanFlagTokens :=
      fun x hx => h x (List.mem_cons_of_mem t hx)
    have ht : t ∈ booleanFlagTokens := h t (List.mem_cons_self t ts)
    simp only [booleanFlagTokens, List.mem_cons, List.not_mem_nil, or_false] at ht
    rcases ht with rfl | rfl | rfl | rfl | rfl | rfl | rfl | rfl
    · obtain ⟨a2, r2, heq, hb, hc⟩ := ih { a with compile := true } hts
      exact ⟨a2, r2, heq, hb, hc⟩
    · obtain ⟨a2, r2, heq, hb, hc⟩ := ih { a with compile_python := true } hts
      exact ⟨a2, r2, heq, hb, hc⟩
    · obtain ⟨a2, r2, heq, hb, hc⟩ := ih { a with keep_orphan_rpyc := true } hts
      exact ⟨a2, r2, heq, hb, hc⟩
    · obtain ⟨a2, r2, heq, hb, hc⟩ := ih { a with lint := true } hts
      exact ⟨a2, r2, heq, hb, hc⟩
    · obtain ⟨a2, r2, heq, hb, hc⟩ := ih { a with errors_in_editor := true } hts
      exact ⟨a2, r2, heq, hb, hc⟩
    · obtain ⟨a2, r2, heq, hb, hc⟩ := ih { a with safe_mode := true } hts
      exact ⟨a2, r2, heq, hb, hc⟩
    · obtain ⟨a2, r2, heq, hb, hc⟩ := ih { a with json_dump_private := true } hts
      exact ⟨a2, r2, heq, hb, hc⟩
    · obtain ⟨a2, r2, heq, hb, hc⟩ := ih { a with json_dump_common := true } hts
      exact ⟨a2, r2, heq, hb, hc⟩

/-- Helper: boolean flag tokens match neither launcher marker, so the
sanitizers leave such argument vectors alone. -/
theorem flagTokens_no_marker (toks : List String)
    (h : ∀ t ∈ toks, t ∈ booleanFlagTokens) :
    toks.any (fun i => strStarts (strLower i) "-epicapp=") = false ∧
    toks.any (fun i => strStarts (strLower i) "-psn") = false := by
  constructor <;>
  · rw [List.any_eq_false]
    intro t ht
    have hmem := h t ht
    simp only [booleanFlagTokens, List.mem_cons, List.not_mem_nil, or_false] at hmem
    rcases hmem with rfl | rfl | rfl | rfl | rfl | rfl | rfl | rfl <;> decide

/-- C8: a bootstrap pass whose tokens after the program name are all
boolean flags (in particular, contain no positional token) yields parsed
arguments with `command = "run"` and `basedir = ""`. -/
theorem C8_no_positionals_defaults (session : Session) (prog : String)
    (toks : List String) (ea : Option (List String))
    (h : ∀ t ∈ toks, t ∈ booleanFlagTokens) :
    ∃ args : ParsedArgs, (bootstrap ⟨prog :: toks, ea⟩ session).2 = .ok args ∧
      args.command = "run" ∧ args.basedir = "" := by
  obtain ⟨hepic, hpsn⟩ := flagTokens_no_marker toks h
  obtain ⟨a2, r2, heq, hb, hc⟩ := lenientParse_flag_tokens toks defaultArgs 0 [] h
  have hclean1 : clean_epic_arguments ⟨prog :: toks, ea⟩ = ⟨prog :: toks, ea⟩ := by
    simp [clean_epic_arguments, hepic]
  have hclean2 : clean_macos_arguments ⟨prog :: toks, ea⟩ = ⟨prog :: toks, ea⟩ := by
    simp [clean_macos_arguments, hpsn]
  have hpk : parse_known_args session toks = .ok (postProcessArgs session a2) r2 := by
    unfold parse_known_args
    rw [heq]
  have hppc : (postProcessArgs session a2).command = "run" := by
    rw [(postProcessArgs_fields session a2).1, hc]
    rfl
  have hppb : (postProcessArgs session a2).basedir = "" := by
    rw [(postProcessArgs_fields session a2).2, hb]
    rfl
  have hboot : (bootstrap ⟨prog :: toks, ea⟩ session).2 =
      .ok (if (postProcessArgs session a2).command = "lint"
        then { postProcessArgs session a2 with lint := true }
        else postProcessArgs session a2) := by
    simp only [bootstrap, hclean1, hclean2]
    rw [show ((⟨prog :: toks, ea⟩ : SysState).argv.drop 1) = toks from rfl, hpk]
  refine ⟨postProcessArgs session a2, ?_, hppc, hppb⟩
  rw [hboot, if_neg (by rw [hppc]; decide)]

/-- C8 witness: a vector of flag tokens only, `renpy --lint --compile`,
bootstraps to `command = "run"` and `basedir = ""`. -/
theorem C8_witness :
    ∃ args : ParsedArgs,
      (bootstrap ⟨"renpy" :: ["--lint", "--compile"], none⟩ emptySession).2 = .ok args ∧
      args.command = "run" ∧ args.basedir = "" :=
  C8_no_positionals_defaults emptySession "renpy" ["--lint", "--compile"] none (by decide)

/-- Helper: one registration keeps the two dicts keyed identically, so any
fold of registrations from a key-synchronized start stays synchronized. -/
theorem registry_fold_invariant {H : Type} (l : List (String × H × Bool))
    (r : Registry H)
    (hr : ∀ n, (r.commands n).isSome ↔ (r.display n).isSome) :
    ∀ n, ((l.foldl (fun r x => register_command r x.1 x.2.1 x.2.2) r).commands n).isSome ↔
      ((l.foldl (fun r x => register_command r x.1 x.2.1 x.2.2) r).display n).isSome := by
  induction l generalizing r with
  | nil => exact hr
  | cons x xs ih =>
    intro n
    simp only [List.foldl_cons]
    refine ih (register_command r x.1 x.2.1 x.2.2) ?_ n
    intro m
    simp only [register_command, dictSet]
    by_cases hm : m = x.1 <;> simp [hm, hr m]

/-- C9: after any sequence of `register_command` calls starting from the
empty registries, the command dict and the display dict have the same
keys; hence every name found in the command dict at dispatch time has a
successful display-flag lookup. -/
theorem C9_registry_key_sets {H : Type} (l : List (String × H × Bool)) :
    (∀ n, ((applyRegistrations H l).commands n).isSome ↔
      ((applyRegistrations H l).display n).isSome) ∧
    ∀ (n : String) (f : H), (applyRegistrations H l).commands n = some f →
      ∃ d : Bool, (applyRegistrations H l).display n = some d := by
  have hinv : ∀ n, ((applyRegistrations H l).commands n).isSome ↔
      ((applyRegistrations H l).display n).isSome := by
    refine registry_fold_invariant l (emptyRegistry H) ?_
    intro n
    simp [emptyRegistry]
  refine ⟨hinv, ?_⟩
  intro n f hf
  have h2 : ((applyRegistrations H l).display n).isSome := by
    refine (hinv n).mp ?_
    rw [hf]
    rfl
  cases hd : (applyRegistrations H l).display n with
  | none =>
    rw [hd] at h2
    exact Bool.noConfusion h2
  | some d => exact ⟨d, rfl⟩

/-- C9 witness: registering `"run"` leaves its display-flag lookup
successful. -/
theorem C9_witness :
    ∃ d : Bool, (applyRegistrations Handler [("run", Handler.run, true)]).display "run" =
      some d :=
  (C9_registry_key_sets [("run", Handler.run, true)]).2 "run" Handler.run (by decide)

/-- Helper: with the `"_warped"` marker set the warp step is a no-op. -/
theorem run_warp_marker_set (args : ParsedArgs) (st : WarpState)
    (h : st.session.get "_warped" false = true) : run_warp args st = st := by
  have hap : appliesWarp args st = false := by
    unfold appliesWarp
    rw [h]
    simp
  simp [run_warp, hap]

/-- Helper: a warp application sets the `"_warped"` marker. -/
theorem run_warp_sets_marker (args : ParsedArgs) (st : WarpState)
    (h : appliesWarp args st = true) :
    (run_warp args st).session.get "_warped" false = true := by
  simp [run_warp, h, Session.get, Session.set]

/-- Helper: the warp step never clears an already-set marker. -/
theorem run_warp_keeps_marker (args : ParsedArgs) (st : WarpState)
    (h : st.session.get "_warped" false = true) :
    (run_warp args st).session.get "_warped" false = true := by
  rw [run_warp_marker_set args st h]
  exact h

/-- Helper: once the marker is set, no later invocation applies a warp. -/
theorem countWarp_zero_of_marker (l : List ParsedArgs) (st : WarpState)
    (h : st.session.get "_warped" false = true) :
    countWarpApplications l st = 0 := by
  induction l generalizing st with
  | nil => rfl
  | cons a l ih =>
    have hap : appliesWarp a st = false := by
      unfold appliesWarp
      rw [h]
      simp
    simp [countWarpApplications, hap]
    exact ih (run_warp a st) (run_warp_keeps_marker a st h)

/-- Helper: any sequence of run-handler invocations applies a warp at most
once. -/
theorem countWarp_le_one (l : List ParsedArgs) (st : WarpState) :
    countWarpApplications l st ≤ 1 := by
  induction l generalizing st with
  | nil => simp [countWarpApplications]
  | cons a l ih =>
    cases hap : appliesWarp a st with
    | true =>
      have h0 : countWarpApplications l (run_warp a st) = 0 :=
        countWarp_zero_of_marker l (run_warp a st) (run_warp_sets_marker a st hap)
      simp [countWarpApplications, hap, h0]
    | false =>
      have hrec := ih (run_warp a st)
      simpa [countWarpApplications, hap] using hrec

/-- C10: the run handler applies a warp target only when the `"_warped"`
marker is unset, sets the marker in the same step, and consequently no
sequence of run-handler invocations within one session applies a warp
target more than once. -/
theorem C10_warp_applied_at_most_once (l : List ParsedArgs) (st : WarpState)
    (a : ParsedArgs) :
    countWarpApplications l st ≤ 1 ∧
    (st.session.get "_warped" false = true →
      run_warp a st = st ∧ countWarpApplications l st = 0) ∧
    (appliesWarp a st = true →
      (run_warp a st).session.get "_warped" false = true) :=
  ⟨countWarp_le_one l st,
   fun h => ⟨run_warp_marker_set a st h, countWarp_zero_of_marker l st h⟩,
   fun h => run_warp_sets_marker a st h⟩

/-- C10 witness: with the marker already set, a warp-carrying invocation is
a no-op and a two-invocation sequence applies no warp. -/
theorem C10_witness :
    run_warp warpArgs warpedState = warpedState ∧
    countWarpApplications [warpArgs, warpArgs] warpedState = 0 :=
  (C10_warp_applied_at_most_once [warpArgs, warpArgs] warpedState warpArgs).2.1 (by decide)
